import Mathlib

/-!
Verification of the trending-score store (`app/mixins/trending/dynamo.py`).

The Python module manipulates `decimal.Decimal` scores and issues single
conditional DynamoDB requests.  We embed:

* `Dec` — a `decimal.Decimal` value: an integer coefficient together with a
  base-10 exponent.  Numeric comparison, addition, `quantize` (round to the
  target exponent, banker's rounding, the context default used by the code)
  and `normalize` (strip trailing zeros) follow the `decimal` semantics.
* `Store` — the DynamoDB table as a partial map from primary keys to items;
  conditional writes are modelled as pure state transformers that either
  update the single addressed key or fail leaving the store untouched.
* `TrendingDynamo` — the five operations of the Python class, translated
  request by request: the composed `Item`, the update applied on success and
  the condition expressions (`attribute_not_exists`, attribute equality,
  `begins_with`) determine each branch.
-/

deriving instance DecidableEq for Except

namespace Trending

/-- A `decimal.Decimal` value: `coeff * 10 ^ exp`. -/
structure Dec where
  coeff : Int
  exp : Int
deriving DecidableEq

/-- The coefficient of `x` rewritten for exponent `m` (meaningful for `m ≤ x.exp`):
`x.scale m * 10 ^ m` has the same value as `x`. -/
def Dec.scale (x : Dec) (m : Int) : Int :=
  x.coeff * 10 ^ (x.exp - m).toNat

/-- Numeric equality of two decimals (`Decimal.__eq__`, and DynamoDB number
equality): compare coefficients at the common smaller exponent. -/
def Dec.eqv (x y : Dec) : Bool :=
  x.scale (min x.exp y.exp) = y.scale (min x.exp y.exp)

/-- Numeric `≤` on decimals (`Decimal.__le__`). -/
def Dec.ble (x y : Dec) : Bool :=
  x.scale (min x.exp y.exp) ≤ y.scale (min x.exp y.exp)

/-- Numeric `<` on decimals (`Decimal.__lt__`). -/
def Dec.blt (x y : Dec) : Bool :=
  x.scale (min x.exp y.exp) < y.scale (min x.exp y.exp)

/-- Exact decimal addition (`Decimal.__add__`, and the arithmetic DynamoDB's
`ADD` update action performs on number attributes). -/
def Dec.add (x y : Dec) : Dec :=
  ⟨x.scale (min x.exp y.exp) + y.scale (min x.exp y.exp), min x.exp y.exp⟩

/-- The decimal zero. -/
def Dec.zero : Dec := ⟨0, 0⟩

/-- Round-half-to-even division of naturals: `n / d` with ties to the even
quotient (the `ROUND_HALF_EVEN` default rounding of `decimal`). -/
def ndivHalfEven (n d : Nat) : Nat :=
  let q := n / d
  let r := n % d
  if 2 * r < d then q
  else if d < 2 * r then q + 1
  else if q % 2 = 0 then q else q + 1

/-- Round-half-to-even division of an integer by a natural. -/
def zdivHalfEven (c : Int) (d : Nat) : Int :=
  if 0 ≤ c then (ndivHalfEven c.toNat d : Int)
  else -(ndivHalfEven (-c).toNat d : Int)

/-- `Decimal.quantize`: rewrite `x` to the exponent of `target`, rounding
half-to-even when digits are dropped (`self.PERCISION` supplies the target,
`Decimal(10) ** -9`). -/
def Dec.quantize (x target : Dec) : Dec :=
  if target.exp ≤ x.exp then ⟨x.coeff * 10 ^ (x.exp - target.exp).toNat, target.exp⟩
  else ⟨zdivHalfEven x.coeff (10 ^ (target.exp - x.exp).toNat), target.exp⟩

/-- Strip factors of 10 from a nonzero coefficient, raising the exponent; the
first argument is fuel bounding the number of strips (structural recursion so
that the function evaluates by kernel reduction; `stripZeros` passes `c`
itself, which is ample since each strip divides the coefficient by 10). -/
def stripZerosAux : Nat → Nat → Int → Nat × Int
  | 0, c, e => (c, e)
  | f + 1, c, e => if c ≠ 0 ∧ c % 10 = 0 then stripZerosAux f (c / 10) (e + 1) else (c, e)

/-- Strip factors of 10 from a nonzero coefficient, raising the exponent. -/
def stripZeros (c : Nat) (e : Int) : Nat × Int :=
  stripZerosAux c c e

/-- `Decimal.normalize`: strip trailing zeros (zero normalizes to exponent 0). -/
def Dec.normalize (x : Dec) : Dec :=
  if x.coeff = 0 then ⟨0, 0⟩
  else
    ⟨(if x.coeff < 0 then -((stripZeros x.coeff.natAbs x.exp).1 : Int)
      else ((stripZeros x.coeff.natAbs x.exp).1 : Int)),
     (stripZeros x.coeff.natAbs x.exp).2⟩

/-- `begins_with` on lists of characters. -/
def listBeginsWith : List Char → List Char → Bool
  | _, [] => true
  | [], _ :: _ => false
  | a :: s, b :: p => a = b && listBeginsWith s p

/-- The DynamoDB `begins_with(s, p)` condition function on strings. -/
def beginsWith (s p : String) : Bool :=
  listBeginsWith s.data p.data

/-- A DynamoDB primary key. -/
structure Key where
  partitionKey : String
  sortKey : String
deriving DecidableEq

/-- A trending item as composed by `TrendingDynamo.add`. -/
structure Item where
  partitionKey : String
  sortKey : String
  schemaVersion : Nat
  gsiK3PartitionKey : String
  gsiK3SortKey : Dec
  lastDeflatedAt : String
  createdAt : String
deriving DecidableEq

/-- The DynamoDB table: a partial map from primary keys to items. -/
def Store := Key → Option Item

/-- The store with no items. -/
def emptyStore : Store := fun _ => none

/-- Failure outcomes: the two typed exceptions raised by the module, plus
`assertionError` for the `assert` statements guarding each operation. -/
inductive TrendingError where
  | assertionError
  | trendingAlreadyExists
  | trendingDNEOrAttributeMismatch
deriving DecidableEq

/-- `TrendingDynamo.PERCISION = Decimal(10) ** -9`. -/
def PERCISION : Dec := ⟨1, -9⟩

/-- The `TrendingDynamo` class: its only relevant state is the item type. -/
structure TrendingDynamo where
  item_type : String

/-- `TrendingDynamo.pk`. -/
def TrendingDynamo.pk (self : TrendingDynamo) (item_id : String) : Key :=
  ⟨self.item_type ++ "/" ++ item_id, "trending"⟩

/-- The `Item` dict composed by `TrendingDynamo.add`. -/
def TrendingDynamo.addItem (self : TrendingDynamo) (item_id : String) (initial_score : Dec)
    (now : String) : Item :=
  { partitionKey := (self.pk item_id).partitionKey
    sortKey := (self.pk item_id).sortKey
    schemaVersion := 0
    gsiK3PartitionKey := self.item_type ++ "/trending"
    gsiK3SortKey := (initial_score.quantize PERCISION).normalize
    lastDeflatedAt := now
    createdAt := now }

/-- `TrendingDynamo.add`.  Timestamps travel as ISO-8601 strings, so `now` is
the already-rendered `now.to_iso8601_string()`.  The client's `add_item`
(not under `src/`) is, per the spec, a put conditioned on the identity not
already existing, raising `ConditionalCheckFailedException` on conflict. -/
def TrendingDynamo.add (self : TrendingDynamo) (item_id : String) (initial_score : Dec)
    (now : String) (st : Store) : Except TrendingError Item × Store :=
  if Dec.ble Dec.zero initial_score then
    let k := self.pk item_id
    let item : Item := self.addItem item_id initial_score now
    match st k with
    | some _ => (.error .trendingAlreadyExists, st)
    | none => (.ok item, fun k2 => if k2 = k then some item else st k2)
  else (.error .assertionError, st)

/-- `TrendingDynamo.add_score`: `ADD gsiK3SortKey :sta` conditioned on
`lastDeflatedAt = :elda`; an absent item also fails the condition. -/
def TrendingDynamo.add_score (self : TrendingDynamo) (item_id : String) (score_to_add : Dec)
    (expected_last_deflated_at : String) (st : Store) : Except TrendingError Item × Store :=
  if Dec.ble Dec.zero score_to_add then
    let k := self.pk item_id
    match st k with
    | some it =>
      if it.lastDeflatedAt = expected_last_deflated_at then
        let it2 : Item :=
          { it with gsiK3SortKey := it.gsiK3SortKey.add ((score_to_add.quantize PERCISION).normalize) }
        (.ok it2, fun k2 => if k2 = k then some it2 else st k2)
      else (.error .trendingDNEOrAttributeMismatch, st)
    | none => (.error .trendingDNEOrAttributeMismatch, st)
  else (.error .assertionError, st)

/-- `TrendingDynamo.deflate_score`: `SET gsiK3SortKey = :ns, lastDeflatedAt = :lda`
conditioned on `gsiK3SortKey = :es AND begins_with(lastDeflatedAt, :eldd)`;
`:es` is passed through without normalization. -/
def TrendingDynamo.deflate_score (self : TrendingDynamo) (item_id : String)
    (expected_score new_score : Dec) (expected_last_deflation_date now : String)
    (st : Store) : Except TrendingError Item × Store :=
  if Dec.ble Dec.zero new_score then
    if Dec.blt new_score expected_score then
      let k := self.pk item_id
      match st k with
      | some it =>
        if Dec.eqv it.gsiK3SortKey expected_score
            && beginsWith it.lastDeflatedAt expected_last_deflation_date then
          let it2 : Item :=
            { it with gsiK3SortKey := (new_score.quantize PERCISION).normalize
                      lastDeflatedAt := now }
          (.ok it2, fun k2 => if k2 = k then some it2 else st k2)
        else (.error .trendingDNEOrAttributeMismatch, st)
      | none => (.error .trendingDNEOrAttributeMismatch, st)
    else (.error .assertionError, st)
  else (.error .assertionError, st)

/-- `TrendingDynamo.delete`: a delete, conditioned on `gsiK3SortKey = :es` when
an expected score is supplied; DynamoDB's unconditioned delete of an absent
item succeeds as a no-op. -/
def TrendingDynamo.delete (self : TrendingDynamo) (item_id : String)
    (expected_score : Option Dec) (st : Store) : Except TrendingError Unit × Store :=
  let k := self.pk item_id
  match expected_score with
  | some es =>
    match st k with
    | some it =>
      if Dec.eqv it.gsiK3SortKey es then
        (.ok (), fun k2 => if k2 = k then none else st k2)
      else (.error .trendingDNEOrAttributeMismatch, st)
    | none => (.error .trendingDNEOrAttributeMismatch, st)
  | none => (.ok (), fun k2 => if k2 = k then none else st k2)

/-- Modelled from the spec: the dynamo client's `generate_all_query` is not
under `src/`.  `TrendingDynamo.generate_keys` queries the `GSI-K3` index with
partition value `f"{self.item_type}/trending"`; per the spec the store returns
the matching records "Ordered with lowest score first", paginating until
exhausted.  We model the fully drained scan: the records of this item type,
arranged in non-decreasing order of their `gsiK3SortKey` score. -/
def TrendingDynamo.generate_keys (self : TrendingDynamo) (index : List Item) : List Item :=
  (index.filter fun it => it.gsiK3PartitionKey = self.item_type ++ "/trending").mergeSort
    fun a b => Dec.ble a.gsiK3SortKey b.gsiK3SortKey

/-! ### Scale algebra for `Dec`

`x.scale m` is the coefficient of `x` rewritten for the smaller exponent `m`;
all numeric comparisons of decimals reduce to integer comparisons of scales at
a common exponent. -/

theorem Dec.scale_trans (x : Dec) {m m' : Int} (h1 : m ≤ m') (h2 : m' ≤ x.exp) :
    x.scale m = x.scale m' * 10 ^ (m' - m).toNat := by
  unfold Dec.scale
  rw [show (x.exp - m).toNat = (x.exp - m').toNat + (m' - m).toNat by omega, pow_add, mul_assoc]

theorem Dec.scale_le_scale_iff {x y : Dec} {m m' : Int} (h1 : m ≤ m')
    (hx : m' ≤ x.exp) (hy : m' ≤ y.exp) :
    x.scale m ≤ y.scale m ↔ x.scale m' ≤ y.scale m' := by
  rw [x.scale_trans h1 hx, y.scale_trans h1 hy]
  exact mul_le_mul_right (pow_pos (by norm_num) _)

theorem Dec.scale_lt_scale_iff {x y : Dec} {m m' : Int} (h1 : m ≤ m')
    (hx : m' ≤ x.exp) (hy : m' ≤ y.exp) :
    x.scale m < y.scale m ↔ x.scale m' < y.scale m' := by
  rw [x.scale_trans h1 hx, y.scale_trans h1 hy]
  exact mul_lt_mul_right (pow_pos (by norm_num) _)

theorem Dec.scale_eq_scale_iff {x y : Dec} {m m' : Int} (h1 : m ≤ m')
    (hx : m' ≤ x.exp) (hy : m' ≤ y.exp) :
    x.scale m = y.scale m ↔ x.scale m' = y.scale m' := by
  constructor
  · intro h
    exact le_antisymm ((Dec.scale_le_scale_iff h1 hx hy).mp h.le)
      ((Dec.scale_le_scale_iff h1 hy hx).mp h.ge)
  · intro h
    rw [x.scale_trans h1 hx, y.scale_trans h1 hy, h]

theorem Dec.ble_iff {x y : Dec} {m : Int} (hx : m ≤ x.exp) (hy : m ≤ y.exp) :
    x.ble y = true ↔ x.scale m ≤ y.scale m := by
  unfold Dec.ble
  rw [decide_eq_true_iff]
  exact (Dec.scale_le_scale_iff (le_min hx hy) (min_le_left _ _) (min_le_right _ _)).symm

theorem Dec.blt_iff {x y : Dec} {m : Int} (hx : m ≤ x.exp) (hy : m ≤ y.exp) :
    x.blt y = true ↔ x.scale m < y.scale m := by
  unfold Dec.blt
  rw [decide_eq_true_iff]
  exact (Dec.scale_lt_scale_iff (le_min hx hy) (min_le_left _ _) (min_le_right _ _)).symm

theorem Dec.eqv_iff {x y : Dec} {m : Int} (hx : m ≤ x.exp) (hy : m ≤ y.exp) :
    x.eqv y = true ↔ x.scale m = y.scale m := by
  unfold Dec.eqv
  rw [decide_eq_true_iff]
  exact (Dec.scale_eq_scale_iff (le_min hx hy) (min_le_left _ _) (min_le_right _ _)).symm

theorem Dec.eqv_symm {x y : Dec} (h : x.eqv y = true) : y.eqv x = true := by
  rw [Dec.eqv_iff (min_le_right x.exp y.exp) (min_le_left x.exp y.exp)]
  exact ((Dec.eqv_iff (min_le_left x.exp y.exp) (min_le_right x.exp y.exp)).mp h).symm

theorem Dec.eqv_trans {x y z : Dec} (h1 : x.eqv y = true) (h2 : y.eqv z = true) :
    x.eqv z = true := by
  set m := min x.exp (min y.exp z.exp) with hm
  have hx : m ≤ x.exp := min_le_left _ _
  have hy : m ≤ y.exp := le_trans (min_le_right _ _) (min_le_left _ _)
  have hz : m ≤ z.exp := le_trans (min_le_right _ _) (min_le_right _ _)
  rw [Dec.eqv_iff hx hz]
  rw [Dec.eqv_iff hx hy] at h1
  rw [Dec.eqv_iff hy hz] at h2
  exact h1.trans h2

theorem Dec.scale_nonneg {x : Dec} (h : 0 ≤ x.coeff) (m : Int) : 0 ≤ x.scale m :=
  mul_nonneg h (pow_nonneg (by norm_num) _)

theorem Dec.coeff_nonneg_of_scale {x : Dec} {m : Int} (h : 0 ≤ x.scale m) : 0 ≤ x.coeff := by
  by_contra hneg
  push_neg at hneg
  have : x.scale m < 0 := mul_neg_of_neg_of_pos hneg (pow_pos (by norm_num) _)
  omega

theorem Dec.ble_zero_iff {x : Dec} : Dec.ble Dec.zero x = true ↔ 0 ≤ x.coeff := by
  rw [Dec.ble_iff (y := x) (m := min 0 x.exp) (by simp [Dec.zero]) (min_le_right _ _)]
  constructor
  · intro h
    exact Dec.coeff_nonneg_of_scale (le_trans (by simp [Dec.zero, Dec.scale]) h)
  · intro h
    exact le_trans (by simp [Dec.zero, Dec.scale]) (Dec.scale_nonneg h _)

theorem Dec.add_exp (x y : Dec) : (x.add y).exp = min x.exp y.exp := rfl

theorem Dec.scale_self (x : Dec) : x.scale x.exp = x.coeff := by
  unfold Dec.scale
  simp

theorem Dec.add_scale {x y : Dec} {m : Int} (h : m ≤ min x.exp y.exp) :
    (x.add y).scale m = x.scale m + y.scale m := by
  have hx : min x.exp y.exp ≤ x.exp := min_le_left _ _
  have hy : min x.exp y.exp ≤ y.exp := min_le_right _ _
  have h2 : (x.add y).scale m
      = (x.add y).scale (min x.exp y.exp) * 10 ^ (min x.exp y.exp - m).toNat :=
    Dec.scale_trans _ h (le_of_eq (Dec.add_exp x y).symm)
  have h3 : (x.add y).scale (min x.exp y.exp)
      = x.scale (min x.exp y.exp) + y.scale (min x.exp y.exp) := Dec.scale_self (x.add y)
  rw [h2, h3, x.scale_trans h hx, y.scale_trans h hy, add_mul]

/-! ### `normalize` preserves the numeric value -/

theorem stripZerosAux_exp_le (f : Nat) : ∀ (c : Nat) (e : Int), e ≤ (stripZerosAux f c e).2 := by
  induction f with
  | zero => intro c e; simp [stripZerosAux]
  | succ f ih =>
    intro c e
    unfold stripZerosAux
    split
    · exact le_trans (by omega) (ih (c / 10) (e + 1))
    · simp

theorem stripZerosAux_scale (f : Nat) : ∀ (c : Nat) (e m : Int), m ≤ e →
    ((stripZerosAux f c e).1 : Int) * 10 ^ ((stripZerosAux f c e).2 - m).toNat
      = (c : Int) * 10 ^ (e - m).toNat := by
  induction f with
  | zero => intro c e m _; simp [stripZerosAux]
  | succ f ih =>
    intro c e m hm
    unfold stripZerosAux
    split
    case isTrue h =>
      rw [ih (c / 10) (e + 1) m (by omega)]
      have hc : ((c / 10 : Nat) : Int) * 10 = (c : Int) := by
        exact_mod_cast Nat.div_mul_cancel (Nat.dvd_of_mod_eq_zero h.2)
      calc ((c / 10 : Nat) : Int) * 10 ^ (e + 1 - m).toNat
          = (((c / 10 : Nat) : Int) * 10) * 10 ^ (e - m).toNat := by
            rw [show (e + 1 - m).toNat = (e - m).toNat + 1 by omega, pow_succ]; ring
        _ = (c : Int) * 10 ^ (e - m).toNat := by rw [hc]
    case isFalse h => simp

theorem Dec.normalize_exp_ge {x : Dec} {t : Int} (h : t ≤ x.exp) (ht : t ≤ 0) :
    t ≤ x.normalize.exp := by
  unfold Dec.normalize
  split
  · simpa using ht
  · exact le_trans h (stripZerosAux_exp_le _ _ _)

theorem Dec.normalize_scale {x : Dec} {m : Int} (h : m ≤ x.exp) :
    x.normalize.scale m = x.scale m := by
  unfold Dec.normalize Dec.scale stripZeros
  split
  case isTrue h0 => simp [h0]
  case isFalse h0 =>
    by_cases hneg : x.coeff < 0
    · have habs : ((x.coeff.natAbs : Nat) : Int) = -x.coeff := by omega
      simp only [if_pos hneg]
      rw [neg_mul, stripZerosAux_scale _ _ _ _ h, habs]
      ring
    · have habs : ((x.coeff.natAbs : Nat) : Int) = x.coeff := by omega
      simp only [if_neg hneg]
      rw [stripZerosAux_scale _ _ _ _ h, habs]

theorem Dec.normalize_eqv (x : Dec) : x.normalize.eqv x = true := by
  rw [Dec.eqv_iff (min_le_left x.normalize.exp x.exp) (min_le_right _ _)]
  exact Dec.normalize_scale (min_le_right _ _)

theorem Dec.normalize_coeff_nonneg {x : Dec} (h : 0 ≤ x.coeff) : 0 ≤ x.normalize.coeff := by
  unfold Dec.normalize
  split
  · simp
  · have : ¬ x.coeff < 0 := by omega
    simp [this]

/-! ### `quantize` is determined by the numeric value -/

theorem ndivHalfEven_one (n : Nat) : ndivHalfEven n 1 = n := by
  unfold ndivHalfEven
  simp [Nat.mod_one]

theorem zdivHalfEven_one (c : Int) : zdivHalfEven c 1 = c := by
  unfold zdivHalfEven
  split <;> rw [ndivHalfEven_one] <;> omega

theorem ndivHalfEven_mul (n d s : Nat) (hs : 0 < s) :
    ndivHalfEven (n * s) (d * s) = ndivHalfEven n d := by
  unfold ndivHalfEven
  rw [Nat.mul_div_mul_right n d hs, Nat.mul_mod_mul_right s n d]
  have h1 : 2 * (n % d * s) < d * s ↔ 2 * (n % d) < d := by
    rw [← mul_assoc]; exact mul_lt_mul_right hs
  have h2 : d * s < 2 * (n % d * s) ↔ d < 2 * (n % d) := by
    rw [← mul_assoc]; exact mul_lt_mul_right hs
  simp only [h1, h2]

theorem zdivHalfEven_mul (c : Int) (d s : Nat) (hs : 0 < s) :
    zdivHalfEven (c * (s : Int)) (d * s) = zdivHalfEven c d := by
  unfold zdivHalfEven
  rcases le_or_lt 0 c with hc | hc
  · obtain ⟨n, rfl⟩ : ∃ n : Nat, c = (n : Int) := ⟨c.toNat, (Int.toNat_of_nonneg hc).symm⟩
    rw [if_pos hc, if_pos (by positivity)]
    have : (((n : Int)) * (s : Int)).toNat = n * s := by
      rw [← Nat.cast_mul, Int.toNat_natCast]
    rw [this, Int.toNat_natCast, ndivHalfEven_mul n d s hs]
  · have hcs : c * (s : Int) < 0 :=
      mul_neg_of_neg_of_pos hc (by exact_mod_cast hs)
    rw [if_neg (by omega), if_neg (by omega)]
    obtain ⟨n, hn⟩ : ∃ n : Nat, -c = (n : Int) := ⟨(-c).toNat, (Int.toNat_of_nonneg (by omega)).symm⟩
    have : (-(c * (s : Int))).toNat = n * s := by
      rw [neg_mul_eq_neg_mul, hn, ← Nat.cast_mul, Int.toNat_natCast]
    rw [this, hn, Int.toNat_natCast, ndivHalfEven_mul n d s hs]

theorem Dec.quantize_exp (x t : Dec) : (x.quantize t).exp = t.exp := by
  unfold Dec.quantize
  split <;> rfl

theorem Dec.quantize_eq_scaled (x t : Dec) :
    x.quantize t
      = ⟨zdivHalfEven (x.scale (min t.exp x.exp)) (10 ^ (t.exp - min t.exp x.exp).toNat),
         t.exp⟩ := by
  unfold Dec.quantize
  split
  case isTrue h =>
    rw [min_eq_left h]
    simp [Dec.scale, zdivHalfEven_one]
  case isFalse h =>
    rw [min_eq_right (by omega)]
    rw [Dec.scale_self]

theorem Dec.quantize_congr {x y : Dec} (t : Dec) (h : x.eqv y = true) :
    x.quantize t = y.quantize t := by
  rw [Dec.quantize_eq_scaled x t, Dec.quantize_eq_scaled y t]
  have hmx : min (min t.exp x.exp) (min t.exp y.exp) ≤ min t.exp x.exp := min_le_left _ _
  have hmy : min (min t.exp x.exp) (min t.exp y.exp) ≤ min t.exp y.exp := min_le_right _ _
  have hxe : min t.exp x.exp ≤ x.exp := min_le_right _ _
  have hye : min t.exp y.exp ≤ y.exp := min_le_right _ _
  have htx : min t.exp x.exp ≤ t.exp := min_le_left _ _
  have hty : min t.exp y.exp ≤ t.exp := min_le_left _ _
  have e1 : zdivHalfEven (x.scale (min t.exp x.exp)) (10 ^ (t.exp - min t.exp x.exp).toNat)
      = zdivHalfEven (x.scale (min (min t.exp x.exp) (min t.exp y.exp)))
          (10 ^ (t.exp - min (min t.exp x.exp) (min t.exp y.exp)).toNat) := by
    rw [x.scale_trans hmx hxe,
        show (t.exp - min (min t.exp x.exp) (min t.exp y.exp)).toNat
          = (t.exp - min t.exp x.exp).toNat + (min t.exp x.exp
              - min (min t.exp x.exp) (min t.exp y.exp)).toNat by omega,
        pow_add]
    rw [show ((10:Int) ^ (min t.exp x.exp - min (min t.exp x.exp) (min t.exp y.exp)).toNat)
        = (((10 ^ (min t.exp x.exp - min (min t.exp x.exp) (min t.exp y.exp)).toNat : Nat)) : Int)
        by push_cast; ring]
    exact (zdivHalfEven_mul _ _ _ (pow_pos (by norm_num) _)).symm
  have e2 : zdivHalfEven (y.scale (min t.exp y.exp)) (10 ^ (t.exp - min t.exp y.exp).toNat)
      = zdivHalfEven (y.scale (min (min t.exp x.exp) (min t.exp y.exp)))
          (10 ^ (t.exp - min (min t.exp x.exp) (min t.exp y.exp)).toNat) := by
    rw [y.scale_trans hmy hye,
        show (t.exp - min (min t.exp x.exp) (min t.exp y.exp)).toNat
          = (t.exp - min t.exp y.exp).toNat + (min t.exp y.exp
              - min (min t.exp x.exp) (min t.exp y.exp)).toNat by omega,
        pow_add]
    rw [show ((10:Int) ^ (min t.exp y.exp - min (min t.exp x.exp) (min t.exp y.exp)).toNat)
        = (((10 ^ (min t.exp y.exp - min (min t.exp x.exp) (min t.exp y.exp)).toNat : Nat)) : Int)
        by push_cast; ring]
    exact (zdivHalfEven_mul _ _ _ (pow_pos (by norm_num) _)).symm
  have hv : x.scale (min (min t.exp x.exp) (min t.exp y.exp))
      = y.scale (min (min t.exp x.exp) (min t.exp y.exp)) :=
    (Dec.eqv_iff (le_trans hmx hxe) (le_trans hmy hye)).mp h
  congr 1
  rw [e1, e2, hv]

theorem Dec.quantize_exact_eqv {x t : Dec} (h : t.exp ≤ x.exp) :
    (x.quantize t).eqv x = true := by
  rw [Dec.quantize_eq_scaled x t, min_eq_left h]
  have hq : (Dec.mk (zdivHalfEven (x.scale t.exp) (10 ^ (t.exp - t.exp).toNat)) t.exp)
      = Dec.mk (x.scale t.exp) t.exp := by
    simp [zdivHalfEven_one]
  rw [hq]
  refine (Dec.eqv_iff (x := ⟨x.scale t.exp, t.exp⟩) (m := t.exp) (le_refl _) h).mpr ?_
  exact Dec.scale_self _

theorem Dec.quantize_coeff_nonneg {x t : Dec} (h : 0 ≤ x.coeff) : 0 ≤ (x.quantize t).coeff := by
  rw [Dec.quantize_eq_scaled]
  show 0 ≤ zdivHalfEven _ _
  rw [zdivHalfEven, if_pos (Dec.scale_nonneg h _)]
  positivity

/-! ### Addition and order lemmas -/

theorem Dec.add_right_comm (x y z : Dec) : (x.add y).add z = (x.add z).add y := by
  show Dec.mk ((x.add y).scale (min (x.add y).exp z.exp) + z.scale (min (x.add y).exp z.exp))
      (min (x.add y).exp z.exp)
    = Dec.mk ((x.add z).scale (min (x.add z).exp y.exp) + y.scale (min (x.add z).exp y.exp))
      (min (x.add z).exp y.exp)
  have hM : min (x.add y).exp z.exp = min (x.add z).exp y.exp := by
    rw [Dec.add_exp, Dec.add_exp, min_right_comm]
  rw [hM]
  have hx : min (x.add z).exp y.exp ≤ x.exp := by
    rw [Dec.add_exp]
    exact le_trans (min_le_left _ _) (min_le_left _ _)
  have hy : min (x.add z).exp y.exp ≤ y.exp := min_le_right _ _
  have hz : min (x.add z).exp y.exp ≤ z.exp := by
    rw [Dec.add_exp]
    exact le_trans (min_le_left _ _) (min_le_right _ _)
  rw [Dec.add_scale (le_min hx hy), Dec.add_scale (le_min hx hz)]
  congr 1
  ring

theorem Dec.add_coeff_nonneg {x y : Dec} (hx : 0 ≤ x.coeff) (hy : 0 ≤ y.coeff) :
    0 ≤ (x.add y).coeff :=
  add_nonneg (Dec.scale_nonneg hx _) (Dec.scale_nonneg hy _)

theorem Dec.ble_trans {x y z : Dec} (h1 : x.ble y = true) (h2 : y.ble z = true) :
    x.ble z = true := by
  have hx : min x.exp (min y.exp z.exp) ≤ x.exp := min_le_left _ _
  have hy : min x.exp (min y.exp z.exp) ≤ y.exp :=
    le_trans (min_le_right _ _) (min_le_left _ _)
  have hz : min x.exp (min y.exp z.exp) ≤ z.exp :=
    le_trans (min_le_right _ _) (min_le_right _ _)
  rw [Dec.ble_iff hx hz]
  rw [Dec.ble_iff hx hy] at h1
  rw [Dec.ble_iff hy hz] at h2
  omega

theorem Dec.ble_total (x y : Dec) : (x.ble y || y.ble x) = true := by
  rcases le_total (x.scale (min x.exp y.exp)) (y.scale (min x.exp y.exp)) with h | h
  · have hb : x.ble y = true :=
      (Dec.ble_iff (min_le_left x.exp y.exp) (min_le_right x.exp y.exp)).mpr h
    rw [hb, Bool.true_or]
  · have hb : y.ble x = true :=
      (Dec.ble_iff (min_le_right x.exp y.exp) (min_le_left x.exp y.exp)).mpr h
    rw [hb, Bool.or_true]

theorem Dec.blt_eq_not_ble (x y : Dec) : x.blt y = !(y.ble x) := by
  unfold Dec.blt Dec.ble
  rw [min_comm y.exp x.exp]
  by_cases h : x.scale (min x.exp y.exp) < y.scale (min x.exp y.exp)
  · rw [decide_eq_true h, decide_eq_false (not_le.mpr h)]
    rfl
  · rw [decide_eq_false h, decide_eq_true (not_lt.mp h)]
    rfl

theorem Dec.quantize_of_exp_eq {z t : Dec} (h : z.exp = t.exp) : z.quantize t = z := by
  unfold Dec.quantize
  rw [if_pos (le_of_eq h.symm), h]
  simp only [sub_self, Int.toNat_zero, pow_zero, mul_one]
  exact congrArg (Dec.mk z.coeff) h.symm

/-! ### Fixtures for the concrete witnesses -/

/-- A `TrendingDynamo` for item type `post`. -/
def postDynamo : TrendingDynamo := ⟨"post"⟩

/-- A sample stored trending item with score 5. -/
def item1 : Item :=
  { partitionKey := "post/p1", sortKey := "trending", schemaVersion := 0
    gsiK3PartitionKey := "post/trending", gsiK3SortKey := ⟨5, 0⟩
    lastDeflatedAt := "2021-03-01T02:00:00+00:00", createdAt := "2021-02-01T00:00:00+00:00" }

/-- A store holding exactly `item1`. -/
def st1 : Store := fun k => if k = ⟨"post/p1", "trending"⟩ then some item1 else none

/-! ### Single-step evaluation helpers -/

theorem TrendingDynamo.add_eq_of_none (self : TrendingDynamo) (item_id : String)
    (i : Dec) (now : String) (st : Store)
    (hi : Dec.ble Dec.zero i = true) (habs : st (self.pk item_id) = none) :
    self.add item_id i now st
      = (.ok (self.addItem item_id i now),
         fun k2 => if k2 = self.pk item_id then some (self.addItem item_id i now) else st k2) := by
  simp only [TrendingDynamo.add, hi, if_true, habs]

theorem TrendingDynamo.add_score_eq_of_match (self : TrendingDynamo) (item_id : String)
    (d : Dec) (elda : String) (st : Store) (it : Item)
    (hd : Dec.ble Dec.zero d = true) (hit : st (self.pk item_id) = some it)
    (hl : it.lastDeflatedAt = elda) :
    self.add_score item_id d elda st
      = (.ok { it with gsiK3SortKey := it.gsiK3SortKey.add ((d.quantize PERCISION).normalize) },
         fun k2 => if k2 = self.pk item_id
            then some { it with gsiK3SortKey := it.gsiK3SortKey.add ((d.quantize PERCISION).normalize) }
            else st k2) := by
  simp only [TrendingDynamo.add_score, hd, if_true, hit, hl]

theorem TrendingDynamo.add_eq_of_some (self : TrendingDynamo) (item_id : String)
    (i : Dec) (now : String) (st : Store) (it : Item)
    (hi : Dec.ble Dec.zero i = true) (hit : st (self.pk item_id) = some it) :
    self.add item_id i now st = (.error .trendingAlreadyExists, st) := by
  simp only [TrendingDynamo.add, hi, if_true, hit]

/-! ### Claim theorems -/

/-- C1: for `0 ≤ newScore < expectedScore`, `deflate_score` is a single
conditional update: it sets `score = quantize(newScore)` and
`lastDeflatedAt = now` exactly when the stored item exists with stored score
numerically equal to `expectedScore` (used as passed, no re-quantization) and
`lastDeflatedAt` beginning with the expected deflation date; on a failed
condition or an absent record it raises `TrendingDNEOrAttributeMismatch` and
the store is unchanged. -/
theorem C1_deflate_score_contract (self : TrendingDynamo) (item_id : String)
    (es ns : Dec) (date now : String) (st : Store)
    (h0 : Dec.ble Dec.zero ns = true) (h1 : Dec.blt ns es = true) :
    (∀ it, st (self.pk item_id) = some it →
      (Dec.eqv it.gsiK3SortKey es && beginsWith it.lastDeflatedAt date) = true →
        (self.deflate_score item_id es ns date now st).1
            = .ok { it with gsiK3SortKey := (ns.quantize PERCISION).normalize
                            lastDeflatedAt := now } ∧
          (self.deflate_score item_id es ns date now st).2
            = fun k2 => if k2 = self.pk item_id
                then some { it with gsiK3SortKey := (ns.quantize PERCISION).normalize
                                    lastDeflatedAt := now }
                else st k2) ∧
    (∀ it, st (self.pk item_id) = some it →
      (Dec.eqv it.gsiK3SortKey es && beginsWith it.lastDeflatedAt date) = false →
        (self.deflate_score item_id es ns date now st).1
            = .error .trendingDNEOrAttributeMismatch ∧
          (self.deflate_score item_id es ns date now st).2 = st) ∧
    (st (self.pk item_id) = none →
      (self.deflate_score item_id es ns date now st).1
          = .error .trendingDNEOrAttributeMismatch ∧
        (self.deflate_score item_id es ns date now st).2 = st) := by
  refine ⟨?_, ?_, ?_⟩
  · intro it hit hcond
    simp only [TrendingDynamo.deflate_score, h0, h1, if_true, hit, hcond]
    exact ⟨trivial, trivial⟩
  · intro it hit hcond
    simp only [TrendingDynamo.deflate_score, h0, h1, if_true, hit, hcond,
      Bool.false_eq_true, if_false]
    exact ⟨trivial, trivial⟩
  · intro hnone
    simp only [TrendingDynamo.deflate_score, h0, h1, if_true, hnone]
    exact ⟨trivial, trivial⟩

/-- C1 witness: deflating the sample item from score 5 to 3 on its deflation
date succeeds and writes the quantized new score and timestamp. -/
theorem C1_deflate_score_contract_witness :
    Dec.ble Dec.zero (Dec.mk 3 0) = true ∧ Dec.blt (Dec.mk 3 0) (Dec.mk 5 0) = true ∧
    (postDynamo.deflate_score "p1" ⟨5, 0⟩ ⟨3, 0⟩ "2021-03-01"
        "2021-03-02T02:00:00+00:00" st1).1
      = .ok { item1 with gsiK3SortKey := ⟨3, 0⟩
                         lastDeflatedAt := "2021-03-02T02:00:00+00:00" } := by
  refine ⟨by decide, by decide, ?_⟩
  have h := ((C1_deflate_score_contract postDynamo "p1" ⟨5, 0⟩ ⟨3, 0⟩ "2021-03-01"
      "2021-03-02T02:00:00+00:00" st1 (by decide) (by decide)).1 item1 (by decide) (by decide)).1
  rw [h]
  decide

/-- C2: `deflate_score` with a negative new score or with
`newScore ≥ expectedScore` fails the `assert` guards before any request is
issued: the outcome is an assertion error and the store is untouched. -/
theorem C2_deflate_score_fail_fast (self : TrendingDynamo) (item_id : String)
    (es ns : Dec) (date now : String) (st : Store)
    (h : Dec.blt ns Dec.zero = true ∨ Dec.ble es ns = true) :
    (self.deflate_score item_id es ns date now st).1 = .error .assertionError ∧
      (self.deflate_score item_id es ns date now st).2 = st := by
  rcases h with h | h
  · have h0 : Dec.ble Dec.zero ns = false := by
      have hb := Dec.blt_eq_not_ble ns Dec.zero
      rw [h] at hb
      cases hz : Dec.ble Dec.zero ns
      · rfl
      · rw [hz] at hb
        simp at hb
    simp only [TrendingDynamo.deflate_score, h0, Bool.false_eq_true, if_false]
    exact ⟨trivial, trivial⟩
  · have h1 : Dec.blt ns es = false := by
      have hb := Dec.blt_eq_not_ble ns es
      rw [h] at hb
      simpa using hb
    cases h0 : Dec.ble Dec.zero ns
    · simp only [TrendingDynamo.deflate_score, h0, Bool.false_eq_true, if_false]
      exact ⟨trivial, trivial⟩
    · simp only [TrendingDynamo.deflate_score, h0, h1, Bool.false_eq_true, if_true, if_false]
      exact ⟨trivial, trivial⟩

/-- C2 witness: deflating to an equal score (5 to 5) is rejected as an
assertion error with the store unchanged. -/
theorem C2_deflate_score_fail_fast_witness :
    Dec.ble (Dec.mk 5 0) (Dec.mk 5 0) = true ∧
    (postDynamo.deflate_score "p1" ⟨5, 0⟩ ⟨5, 0⟩ "2021-03-01" "x" st1).1
      = .error .assertionError ∧
    (postDynamo.deflate_score "p1" ⟨5, 0⟩ ⟨5, 0⟩ "2021-03-01" "x" st1).2 = st1 := by
  refine ⟨by decide, ?_⟩
  exact C2_deflate_score_fail_fast postDynamo "p1" ⟨5, 0⟩ ⟨5, 0⟩ "2021-03-01" "x" st1
    (Or.inr (by decide))

/-- C3: for `delta ≥ 0`, `add_score` succeeds only when the stored item exists
and its `lastDeflatedAt` equals the expected value exactly, adding the
quantized delta to the stored score; both a value mismatch and an absent
record collapse to the single outcome `TrendingDNEOrAttributeMismatch`, with
the store unchanged. -/
theorem C3_add_score_contract (self : TrendingDynamo) (item_id : String)
    (d : Dec) (elda : String) (st : Store)
    (h : Dec.ble Dec.zero d = true) :
    (∀ it, st (self.pk item_id) = some it → it.lastDeflatedAt = elda →
      (self.add_score item_id d elda st).1
          = .ok { it with gsiK3SortKey := it.gsiK3SortKey.add ((d.quantize PERCISION).normalize) } ∧
        (self.add_score item_id d elda st).2
          = fun k2 => if k2 = self.pk item_id
              then some { it with
                gsiK3SortKey := it.gsiK3SortKey.add ((d.quantize PERCISION).normalize) }
              else st k2) ∧
    (∀ it, st (self.pk item_id) = some it → it.lastDeflatedAt ≠ elda →
      (self.add_score item_id d elda st).1 = .error .trendingDNEOrAttributeMismatch ∧
        (self.add_score item_id d elda st).2 = st) ∧
    (st (self.pk item_id) = none →
      (self.add_score item_id d elda st).1 = .error .trendingDNEOrAttributeMismatch ∧
        (self.add_score item_id d elda st).2 = st) := by
  refine ⟨?_, ?_, ?_⟩
  · intro it hit hl
    simp only [TrendingDynamo.add_score, h, if_true, hit, hl]
    exact ⟨trivial, trivial⟩
  · intro it hit hl
    simp only [TrendingDynamo.add_score, h, if_true, hit, if_neg hl]
    exact ⟨trivial, trivial⟩
  · intro hnone
    simp only [TrendingDynamo.add_score, h, if_true, hnone]
    exact ⟨trivial, trivial⟩

/-- C3 witness: incrementing the sample item with a stale expected
`lastDeflatedAt` fails with `TrendingDNEOrAttributeMismatch` and leaves the
store unchanged. -/
theorem C3_add_score_contract_witness :
    Dec.ble Dec.zero (Dec.mk 25 (-1)) = true ∧
    (postDynamo.add_score "p1" ⟨25, -1⟩ "2021-02-28T00:00:00+00:00" st1).1
      = .error .trendingDNEOrAttributeMismatch ∧
    (postDynamo.add_score "p1" ⟨25, -1⟩ "2021-02-28T00:00:00+00:00" st1).2 = st1 := by
  refine ⟨by decide, ?_⟩
  exact (C3_add_score_contract postDynamo "p1" ⟨25, -1⟩ "2021-02-28T00:00:00+00:00" st1
    (by decide)).2.1 item1 (by decide) (by decide)

/-- C4: starting from an absent identity, `add` with initial score `i` and two
`add_score` increments `d1`, `d2` against the record's current
`lastDeflatedAt` leave the stored score equal to the exact sum
`quantize(i) + quantize(d1) + quantize(d2)`; a further `quantize` of that sum
changes nothing (the sum of canonical scores already lies at nine fractional
digits), and applying the increments in the opposite order yields the same
store. -/
theorem C4_add_score_accumulates (self : TrendingDynamo) (item_id : String)
    (i d1 d2 : Dec) (now : String) (st : Store)
    (hi : Dec.ble Dec.zero i = true) (h1 : Dec.ble Dec.zero d1 = true)
    (h2 : Dec.ble Dec.zero d2 = true) (habs : st (self.pk item_id) = none) :
    ∃ it,
      (self.add_score item_id d2 now
          (self.add_score item_id d1 now (self.add item_id i now st).2).2).2
          (self.pk item_id) = some it ∧
      it.gsiK3SortKey
        = ((i.quantize PERCISION).normalize.add ((d1.quantize PERCISION).normalize)).add
            ((d2.quantize PERCISION).normalize) ∧
      Dec.eqv it.gsiK3SortKey
        (((((i.quantize PERCISION).normalize.add ((d1.quantize PERCISION).normalize)).add
            ((d2.quantize PERCISION).normalize)).quantize PERCISION).normalize) = true ∧
      (self.add_score item_id d2 now
          (self.add_score item_id d1 now (self.add item_id i now st).2).2).2
        = (self.add_score item_id d1 now
            (self.add_score item_id d2 now (self.add item_id i now st).2).2).2 := by
  have hA := self.add_eq_of_none item_id i now st hi habs
  have hA2 : (self.add item_id i now st).2
      = fun k2 => if k2 = self.pk item_id then some (self.addItem item_id i now) else st k2 := by
    rw [hA]
  have hA3 : (self.add item_id i now st).2 (self.pk item_id)
      = some (self.addItem item_id i now) := by
    rw [hA2]
    simp
  have hB := self.add_score_eq_of_match item_id d1 now _ _ h1 hA3 rfl
  have hB2 : (self.add_score item_id d1 now (self.add item_id i now st).2).2
      = fun k2 => if k2 = self.pk item_id
          then some { self.addItem item_id i now with
            gsiK3SortKey := (self.addItem item_id i now).gsiK3SortKey.add
              ((d1.quantize PERCISION).normalize) }
          else (self.add item_id i now st).2 k2 := by
    rw [hB]
  have hB3 : (self.add_score item_id d1 now (self.add item_id i now st).2).2 (self.pk item_id)
      = some { self.addItem item_id i now with
          gsiK3SortKey := (self.addItem item_id i now).gsiK3SortKey.add
            ((d1.quantize PERCISION).normalize) } := by
    rw [hB2]
    simp
  have hC := self.add_score_eq_of_match item_id d2 now _ _ h2 hB3 rfl
  have hB' := self.add_score_eq_of_match item_id d2 now _ _ h2 hA3 rfl
  have hB2' : (self.add_score item_id d2 now (self.add item_id i now st).2).2
      = fun k2 => if k2 = self.pk item_id
          then some { self.addItem item_id i now with
            gsiK3SortKey := (self.addItem item_id i now).gsiK3SortKey.add
              ((d2.quantize PERCISION).normalize) }
          else (self.add item_id i now st).2 k2 := by
    rw [hB']
  have hB3' : (self.add_score item_id d2 now (self.add item_id i now st).2).2 (self.pk item_id)
      = some { self.addItem item_id i now with
          gsiK3SortKey := (self.addItem item_id i now).gsiK3SortKey.add
            ((d2.quantize PERCISION).normalize) } := by
    rw [hB2']
    simp
  have hC' := self.add_score_eq_of_match item_id d1 now _ _ h1 hB3' rfl
  have hq : ∀ z : Dec, PERCISION.exp ≤ ((z.quantize PERCISION).normalize).exp := by
    intro z
    apply Dec.normalize_exp_ge
    · rw [Dec.quantize_exp]
    · decide
  have hexp : PERCISION.exp
      ≤ (((i.quantize PERCISION).normalize.add ((d1.quantize PERCISION).normalize)).add
          ((d2.quantize PERCISION).normalize)).exp := by
    rw [Dec.add_exp, Dec.add_exp]
    exact le_min (le_min (hq i) (hq d1)) (hq d2)
  have heqv : Dec.eqv
      (((i.quantize PERCISION).normalize.add ((d1.quantize PERCISION).normalize)).add
        ((d2.quantize PERCISION).normalize))
      (((((i.quantize PERCISION).normalize.add ((d1.quantize PERCISION).normalize)).add
          ((d2.quantize PERCISION).normalize)).quantize PERCISION).normalize) = true := by
    exact Dec.eqv_symm (Dec.eqv_trans (Dec.normalize_eqv _) (Dec.quantize_exact_eqv hexp))
  refine ⟨{ partitionKey := (self.pk item_id).partitionKey
            sortKey := (self.pk item_id).sortKey
            schemaVersion := 0
            gsiK3PartitionKey := self.item_type ++ "/trending"
            gsiK3SortKey := ((i.quantize PERCISION).normalize.add
                ((d1.quantize PERCISION).normalize)).add ((d2.quantize PERCISION).normalize)
            lastDeflatedAt := now
            createdAt := now }, ?_, rfl, heqv, ?_⟩
  · rw [show (self.add_score item_id d2 now
        (self.add_score item_id d1 now (self.add item_id i now st).2).2).2
          = _ from congrArg Prod.snd hC]
    simp [TrendingDynamo.addItem]
  · rw [show (self.add_score item_id d2 now
        (self.add_score item_id d1 now (self.add item_id i now st).2).2).2 = _ from congrArg Prod.snd hC,
       show (self.add_score item_id d1 now
        (self.add_score item_id d2 now (self.add item_id i now st).2).2).2 = _ from congrArg Prod.snd hC']
    funext k2
    by_cases hk : k2 = self.pk item_id
    · simp only [hk, if_true, if_pos rfl]
      have : (((self.addItem item_id i now).gsiK3SortKey.add
            ((d1.quantize PERCISION).normalize)).add ((d2.quantize PERCISION).normalize))
          = (((self.addItem item_id i now).gsiK3SortKey.add
            ((d2.quantize PERCISION).normalize)).add ((d1.quantize PERCISION).normalize)) :=
        Dec.add_right_comm _ _ _
      simp only [TrendingDynamo.addItem] at this ⊢
      rw [this]
    · simp only [if_neg hk]
      rw [hB2, hB2']
      simp only [if_neg hk]

/-- C4 witness: from the empty store, add score 5 then increment by 2.5 and 1
in either order; the stored score is the exact sum of the canonical values and
re-quantizing it changes nothing. -/
theorem C4_add_score_accumulates_witness :
    Dec.ble Dec.zero (Dec.mk 5 0) = true ∧ Dec.ble Dec.zero (Dec.mk 25 (-1)) = true ∧
    Dec.ble Dec.zero (Dec.mk 1 0) = true ∧ emptyStore (postDynamo.pk "p1") = none ∧
    (∃ it,
      (postDynamo.add_score "p1" ⟨1, 0⟩ "t"
          (postDynamo.add_score "p1" ⟨25, -1⟩ "t"
            (postDynamo.add "p1" ⟨5, 0⟩ "t" emptyStore).2).2).2
          (postDynamo.pk "p1") = some it ∧
      it.gsiK3SortKey
        = (((Dec.mk 5 0).quantize PERCISION).normalize.add
            (((Dec.mk 25 (-1)).quantize PERCISION).normalize)).add
            (((Dec.mk 1 0).quantize PERCISION).normalize) ∧
      Dec.eqv it.gsiK3SortKey
        ((((((Dec.mk 5 0).quantize PERCISION).normalize.add
            (((Dec.mk 25 (-1)).quantize PERCISION).normalize)).add
            (((Dec.mk 1 0).quantize PERCISION).normalize)).quantize PERCISION).normalize) = true ∧
      (postDynamo.add_score "p1" ⟨1, 0⟩ "t"
          (postDynamo.add_score "p1" ⟨25, -1⟩ "t"
            (postDynamo.add "p1" ⟨5, 0⟩ "t" emptyStore).2).2).2
        = (postDynamo.add_score "p1" ⟨25, -1⟩ "t"
            (postDynamo.add_score "p1" ⟨1, 0⟩ "t"
              (postDynamo.add "p1" ⟨5, 0⟩ "t" emptyStore).2).2).2) :=
  ⟨by decide, by decide, by decide, rfl,
   C4_add_score_accumulates postDynamo "p1" ⟨5, 0⟩ ⟨25, -1⟩ ⟨1, 0⟩ "t" emptyStore
     (by decide) (by decide) (by decide) rfl⟩

/-- C6: `add` on an absent identity creates the record with quantized initial
score and `createdAt = lastDeflatedAt = now`; a second `add` for the same
identity raises `TrendingAlreadyExists` and leaves the store (hence the first
record) unchanged. -/
theorem C6_add_contract (self : TrendingDynamo) (item_id : String) (i1 i2 : Dec)
    (now1 now2 : String) (st : Store)
    (h1 : Dec.ble Dec.zero i1 = true) (h2 : Dec.ble Dec.zero i2 = true)
    (habs : st (self.pk item_id) = none) :
    (self.add item_id i1 now1 st).1 = .ok (self.addItem item_id i1 now1) ∧
    (self.add item_id i1 now1 st).2 (self.pk item_id) = some (self.addItem item_id i1 now1) ∧
    (self.addItem item_id i1 now1).gsiK3SortKey = (i1.quantize PERCISION).normalize ∧
    (self.addItem item_id i1 now1).createdAt = now1 ∧
    (self.addItem item_id i1 now1).lastDeflatedAt = now1 ∧
    (self.add item_id i2 now2 (self.add item_id i1 now1 st).2).1
      = .error .trendingAlreadyExists ∧
    (self.add item_id i2 now2 (self.add item_id i1 now1 st).2).2
      = (self.add item_id i1 now1 st).2 := by
  have hA := self.add_eq_of_none item_id i1 now1 st h1 habs
  have hA2 : (self.add item_id i1 now1 st).2
      = fun k2 => if k2 = self.pk item_id then some (self.addItem item_id i1 now1) else st k2 :=
    congrArg Prod.snd hA
  have hA3 : (self.add item_id i1 now1 st).2 (self.pk item_id)
      = some (self.addItem item_id i1 now1) := by
    rw [hA2]
    simp
  have hConf := self.add_eq_of_some item_id i2 now2 _ _ h2 hA3
  refine ⟨by rw [hA], hA3, rfl, rfl, rfl, by rw [hConf], by rw [hConf]⟩

/-- C6 witness: adding `p1` twice from the empty store; the second call
reports `TrendingAlreadyExists`. -/
theorem C6_add_contract_witness :
    Dec.ble Dec.zero (Dec.mk 5 0) = true ∧ Dec.ble Dec.zero (Dec.mk 7 0) = true ∧
    emptyStore (postDynamo.pk "p1") = none ∧
    (postDynamo.add "p1" ⟨7, 0⟩ "t2" (postDynamo.add "p1" ⟨5, 0⟩ "t" emptyStore).2).1
      = .error .trendingAlreadyExists :=
  ⟨by decide, by decide, rfl,
   (C6_add_contract postDynamo "p1" ⟨5, 0⟩ ⟨7, 0⟩ "t" "t2" emptyStore
     (by decide) (by decide) rfl).2.2.2.2.2.1⟩

/-- C5: the ranked scan yields exactly the records whose ranking-index
partition value is this item type's — a finite list, each record once —
arranged in non-decreasing order of canonical score. -/
theorem C5_generate_keys_ranked (self : TrendingDynamo) (index : List Item) :
    (self.generate_keys index).Perm
        (index.filter fun it => it.gsiK3PartitionKey = self.item_type ++ "/trending") ∧
    List.Pairwise (fun a b => Dec.ble a.gsiK3SortKey b.gsiK3SortKey = true)
      (self.generate_keys index) := by
  unfold TrendingDynamo.generate_keys
  constructor
  · exact List.mergeSort_perm _ _
  · exact @List.sorted_mergeSort Item (fun a b => Dec.ble a.gsiK3SortKey b.gsiK3SortKey)
      (fun a b c hab hbc => Dec.ble_trans hab hbc)
      (fun a b => Dec.ble_total _ _)
      _

/-- C7: conditional `delete` succeeds exactly when the stored score equals the
expected score numerically (the expected value is used as passed); a mismatch
or an absent record raises `TrendingDNEOrAttributeMismatch` leaving the store
unchanged; an unconditional `delete` of an absent record is a no-op success. -/
theorem C7_delete_contract (self : TrendingDynamo) (item_id : String) (es : Dec) (st : Store) :
    (∀ it, st (self.pk item_id) = some it →
      (Dec.eqv it.gsiK3SortKey es = true →
        (self.delete item_id (some es) st).1 = .ok () ∧
        (self.delete item_id (some es) st).2
          = fun k2 => if k2 = self.pk item_id then none else st k2) ∧
      (Dec.eqv it.gsiK3SortKey es = false →
        (self.delete item_id (some es) st).1 = .error .trendingDNEOrAttributeMismatch ∧
        (self.delete item_id (some es) st).2 = st)) ∧
    (st (self.pk item_id) = none →
      ((self.delete item_id (some es) st).1 = .error .trendingDNEOrAttributeMismatch ∧
       (self.delete item_id (some es) st).2 = st) ∧
      ((self.delete item_id none st).1 = .ok () ∧
       (self.delete item_id none st).2 = st)) := by
  constructor
  · intro it hit
    constructor
    · intro hcond
      simp only [TrendingDynamo.delete, hit, hcond, if_true]
      exact ⟨trivial, trivial⟩
    · intro hcond
      simp only [TrendingDynamo.delete, hit, hcond, Bool.false_eq_true, if_false]
      exact ⟨trivial, trivial⟩
  · intro hnone
    refine ⟨?_, rfl, ?_⟩
    · simp only [TrendingDynamo.delete, hnone]
      exact ⟨trivial, trivial⟩
    · funext k2
      show (if k2 = self.pk item_id then none else st k2) = st k2
      by_cases hk : k2 = self.pk item_id
      · rw [if_pos hk, hk, hnone]
      · rw [if_neg hk]

/-- C7 witness: deleting the sample item conditioned on its exact stored score
(passed as the value-equal decimal 5.0) succeeds. -/
theorem C7_delete_contract_witness :
    st1 (postDynamo.pk "p1") = some item1 ∧
    Dec.eqv item1.gsiK3SortKey (Dec.mk 50 (-1)) = true ∧
    (postDynamo.delete "p1" (some ⟨50, -1⟩) st1).1 = .ok () :=
  ⟨by decide, by decide,
   (((C7_delete_contract postDynamo "p1" ⟨50, -1⟩ st1).1 item1 (by decide)).1 (by decide)).1⟩

/-- The score invariant: every stored record carries a non-negative score. -/
def Inv (st : Store) : Prop :=
  ∀ k it, st k = some it → Dec.ble Dec.zero it.gsiK3SortKey = true

theorem Dec.ble_zero_qn {x : Dec} (h : Dec.ble Dec.zero x = true) :
    Dec.ble Dec.zero ((x.quantize PERCISION).normalize) = true := by
  rw [Dec.ble_zero_iff] at h ⊢
  exact Dec.normalize_coeff_nonneg (Dec.quantize_coeff_nonneg h)

theorem Dec.ble_zero_add {x y : Dec} (hx : Dec.ble Dec.zero x = true)
    (hy : Dec.ble Dec.zero y = true) : Dec.ble Dec.zero (x.add y) = true := by
  rw [Dec.ble_zero_iff] at hx hy ⊢
  exact Dec.add_coeff_nonneg hx hy

/-- C8: the empty store satisfies the non-negative-score invariant, and every
operation — `add` (its guard admits only non-negative initial scores),
`add_score` (non-negative delta), `deflate_score` (non-negative new score) and
`delete` — preserves it. -/
theorem C8_score_nonneg_invariant (self : TrendingDynamo) (item_id : String)
    (i d es ns : Dec) (oes : Option Dec) (now elda date now2 : String) (st : Store) :
    Inv emptyStore ∧
    (Inv st → Inv (self.add item_id i now st).2) ∧
    (Inv st → Inv (self.add_score item_id d elda st).2) ∧
    (Inv st → Inv (self.deflate_score item_id es ns date now2 st).2) ∧
    (Inv st → Inv (self.delete item_id oes st).2) := by
  refine ⟨fun k it h => Option.noConfusion h, ?_, ?_, ?_, ?_⟩
  · intro hInv k it h
    simp only [TrendingDynamo.add] at h
    split at h
    case isTrue hgate =>
      split at h
      · exact hInv k it h
      · simp only at h
        by_cases hk : k = self.pk item_id
        · rw [if_pos hk] at h
          injection h with h2
          subst h2
          exact Dec.ble_zero_qn hgate
        · rw [if_neg hk] at h
          exact hInv k it h
    case isFalse hgate => exact hInv k it h
  · intro hInv k it h
    simp only [TrendingDynamo.add_score] at h
    split at h
    case isTrue hgate =>
      split at h
      case h_1 it0 heq =>
        split at h
        case isTrue hl =>
          simp only at h
          by_cases hk : k = self.pk item_id
          · rw [if_pos hk] at h
            injection h with h2
            subst h2
            exact Dec.ble_zero_add (hInv _ _ heq) (Dec.ble_zero_qn hgate)
          · rw [if_neg hk] at h
            exact hInv k it h
        case isFalse hl => exact hInv k it h
      case h_2 heq => exact hInv k it h
    case isFalse hgate => exact hInv k it h
  · intro hInv k it h
    simp only [TrendingDynamo.deflate_score] at h
    split at h
    case isTrue hgate =>
      split at h
      case isTrue hgate2 =>
        split at h
        case h_1 it0 heq =>
          split at h
          case isTrue hcond =>
            simp only at h
            by_cases hk : k = self.pk item_id
            · rw [if_pos hk] at h
              injection h with h2
              subst h2
              exact Dec.ble_zero_qn hgate
            · rw [if_neg hk] at h
              exact hInv k it h
          case isFalse hcond => exact hInv k it h
        case h_2 heq => exact hInv k it h
      case isFalse hgate2 => exact hInv k it h
    case isFalse hgate => exact hInv k it h
  · intro hInv k it h
    simp only [TrendingDynamo.delete] at h
    split at h
    case h_1 es0 =>
      split at h
      case h_1 it0 heq =>
        split at h
        case isTrue hcond =>
          simp only at h
          by_cases hk : k = self.pk item_id
          · rw [if_pos hk] at h
            exact Option.noConfusion h
          · rw [if_neg hk] at h
            exact hInv k it h
        case isFalse hcond => exact hInv k it h
      case h_2 heq => exact hInv k it h
    case h_2 =>
      simp only at h
      by_cases hk : k = self.pk item_id
      · rw [if_pos hk] at h
        exact Option.noConfusion h
      · rw [if_neg hk] at h
        exact hInv k it h

/-- C8 witness: the invariant holds of the empty store and of the store
obtained by adding a record with initial score 5 to it. -/
theorem C8_score_nonneg_invariant_witness :
    Inv (postDynamo.add "p1" ⟨5, 0⟩ "t" emptyStore).2 :=
  (C8_score_nonneg_invariant postDynamo "p1" ⟨5, 0⟩ ⟨1, 0⟩ ⟨5, 0⟩ ⟨3, 0⟩ none
      "t" "t" "2021-03-01" "t2" emptyStore).2.1
    (fun k it h => Option.noConfusion h)

/-- C9: `quantize`-then-`normalize` sends numerically equal (non-negative)
decimals to one identical canonical representation, and applying the codec to
an already-canonical value leaves it unchanged. -/
theorem C9_quantize_canonical (x y : Dec)
    (hx : Dec.ble Dec.zero x = true) (hxy : Dec.eqv x y = true) :
    (x.quantize PERCISION).normalize = (y.quantize PERCISION).normalize ∧
    (((x.quantize PERCISION).normalize).quantize PERCISION).normalize
      = (x.quantize PERCISION).normalize := by
  constructor
  · exact congrArg Dec.normalize (Dec.quantize_congr PERCISION hxy)
  · have h1 : ((x.quantize PERCISION).normalize).quantize PERCISION
        = (x.quantize PERCISION).quantize PERCISION :=
      Dec.quantize_congr PERCISION (Dec.normalize_eqv _)
    have h2 : (x.quantize PERCISION).quantize PERCISION = x.quantize PERCISION :=
      Dec.quantize_of_exp_eq (Dec.quantize_exp x PERCISION)
    rw [h1, h2]

/-- C9 witness: 5.0 and 5 are numerically equal and canonicalize to the same
representation. -/
theorem C9_quantize_canonical_witness :
    Dec.ble Dec.zero (Dec.mk 50 (-1)) = true ∧ Dec.eqv ⟨50, -1⟩ ⟨5, 0⟩ = true ∧
    ((Dec.mk 50 (-1)).quantize PERCISION).normalize
      = ((Dec.mk 5 0).quantize PERCISION).normalize :=
  ⟨by decide, by decide, (C9_quantize_canonical ⟨50, -1⟩ ⟨5, 0⟩ (by decide) (by decide)).1⟩

/-- C10: each operation addresses the single key
`(partitionKey = "{item_type}/{item_id}", sortKey = "trending")`; at every
other key the store is untouched. -/
theorem C10_frame (self : TrendingDynamo) (item_id : String) (i d es ns : Dec)
    (oes : Option Dec) (now elda date now2 : String) (st : Store) (k2 : Key)
    (hk : k2 ≠ self.pk item_id) :
    self.pk item_id = ⟨self.item_type ++ "/" ++ item_id, "trending"⟩ ∧
    (self.add item_id i now st).2 k2 = st k2 ∧
    (self.add_score item_id d elda st).2 k2 = st k2 ∧
    (self.deflate_score item_id es ns date now2 st).2 k2 = st k2 ∧
    (self.delete item_id oes st).2 k2 = st k2 := by
  refine ⟨rfl, ?_, ?_, ?_, ?_⟩
  all_goals
    simp only [TrendingDynamo.add, TrendingDynamo.add_score, TrendingDynamo.deflate_score,
      TrendingDynamo.delete]
    repeat' split
    all_goals simp [hk]

/-- C10 witness: an unconditional delete of `p1` leaves the record stored
under a different partition key untouched. -/
theorem C10_frame_witness :
    (⟨"post/p2", "trending"⟩ : Key) ≠ postDynamo.pk "p1" ∧
    (postDynamo.delete "p1" none st1).2 ⟨"post/p2", "trending"⟩
      = st1 ⟨"post/p2", "trending"⟩ :=
  ⟨by decide,
   (C10_frame postDynamo "p1" ⟨1, 0⟩ ⟨1, 0⟩ ⟨1, 0⟩ ⟨1, 0⟩ none "t" "t" "2021-03-01" "t2" st1
     ⟨"post/p2", "trending"⟩ (by decide)).2.2.2.2⟩

end Trending
